import Mathlib

-- Verification development for the workstation interface compliance and
-- reconfiguration tools (workstation-interface-check.py, modify_interfaces.py).
-- Python strings are modelled as lists of characters; fallible operations
-- (a Python expression that can raise) return Option.

set_option maxRecDepth 10000

/-- Python strings are modelled as lists of characters. -/
abbrev Str := List Char

/-- Whitespace test for the ASCII characters that Python str.split and
str.strip treat as whitespace. -/
def isSpace (c : Char) : Bool :=
  c = ' ' || c = '\t' || c = '\n' || c = '\r' || c = '\x0b' || c = '\x0c'

/-- Does the needle occur at the start of the haystack? -/
def startsWith : Str → Str → Bool
  | [], _ => true
  | _ :: _, [] => false
  | a :: as, b :: bs => a = b && startsWith as bs

/-- Python substring containment, the meaning of both the operator in and
of the idiom str.find(sub) != -1 used throughout the sources. -/
def containsSub : Str → Str → Bool
  | n, [] => n.isEmpty
  | n, c :: t => startsWith n (c :: t) || containsSub n t

/-- Python str.split() with no separator: split on runs of whitespace and
discard empty pieces. Accumulator-based so the recursion is structural. -/
def splitWsAux : Str → Str → List Str
  | acc, [] => if acc.isEmpty then [] else [acc.reverse]
  | acc, c :: t =>
    if isSpace c then
      if acc.isEmpty then splitWsAux [] t else acc.reverse :: splitWsAux [] t
    else splitWsAux (c :: acc) t

/-- Python str.split() with no separator. -/
def splitWs (s : Str) : List Str := splitWsAux [] s

/-- Last element of a Python list, the expression lst[-1]; none models the
IndexError raised on an empty list. -/
def pyLast : List Str → Option Str
  | [] => none
  | [x] => some x
  | _ :: x :: t => pyLast (x :: t)

/-- Python s.split(newline): split on every newline character; blank pieces
are kept and a string without newlines yields the one-element list. -/
def splitNl : Str → List Str
  | [] => [[]]
  | c :: t =>
    if c = '\n' then [] :: splitNl t
    else
      match splitNl t with
      | [] => [[c]]
      | s :: rest => (c :: s) :: rest

/-- Join a list of lines with single newline characters, the inverse of
splitNl; used to state that splitting drops no content. -/
def joinNl : List Str → Str
  | [] => []
  | [s] => s
  | s :: t :: r => s ++ '\n' :: joinNl (t :: r)

/-- Number of newline characters in a string. -/
def countNl : Str → Nat
  | [] => 0
  | c :: t => (if c = '\n' then 1 else 0) + countNl t

/-- Python str.strip(): remove leading and trailing whitespace. -/
def pyStrip (s : Str) : Str :=
  ((s.dropWhile isSpace).reverse.dropWhile isSpace).reverse

/-- Python f.readline() on a file with the given full content: the first
line including its trailing newline (or everything when there is none). -/
def readFirstLine : Str → Str
  | [] => []
  | c :: t => if c = '\n' then ['\n'] else c :: readFirstLine t

/-- Python values of the two shapes the extractor produces: the integer
default 1 or a captured string token. -/
inductive PyVal where
  | int : Int → PyVal
  | str : Str → PyVal
deriving DecidableEq, Repr

/-- Python str() as applied to a PyVal by a format call. -/
def pyValStr : PyVal → Str
  | PyVal.int n => (toString n).toList
  | PyVal.str s => s

/-- The required baseline fragments, BASE_CONFIG of
workstation-interface-check.py. -/
def BASE_CONFIG : List Str :=
  ["switchport access vlan".toList,
   "switchport port-security maximum".toList,
   "no logging event link-status".toList,
   "source template".toList,
   "spanning-tree portfast".toList]

/-- The fragment description scanned for by the extractor. -/
def descFrag : Str := "description".toList

/-- The fragment vlan scanned for by the extractor. -/
def vlanFrag : Str := "vlan".toList

/-- The fragment maximum scanned for by the extractor. -/
def maxFrag : Str := "maximum".toList

/-- The forbidden fragment speed. -/
def speedFrag : Str := "speed".toList

/-- The forbidden fragment duplex. -/
def duplexFrag : Str := "duplex".toList

/-- BASE_CONFIG[0], the access-vlan fragment used by get_id_and_template. -/
def bc0 : Str := BASE_CONFIG.getD 0 []

/-- BASE_CONFIG[3], the source-template fragment used by
get_id_and_template. -/
def bc3 : Str := BASE_CONFIG.getD 3 []

/-- The required-fragment loop of check_interface_config: return false as
soon as some fragment of the profile occurs in no line. -/
def checkRequired (interface : List Str) : List Str → Bool
  | [] => true
  | ci :: rest =>
    if interface.any (fun item => containsSub ci item) then checkRequired interface rest
    else false

/-- check_interface_config of workstation-interface-check.py: all
BASE_CONFIG fragments must appear in some line, and no line may mention
speed or duplex. -/
def check_interface_config (interface : List Str) : Bool :=
  if checkRequired interface BASE_CONFIG then
    if (interface.any fun item => containsSub speedFrag item)
        || (interface.any fun item => containsSub duplexFrag item) then false
    else true
  else false

/-- One iteration of the loop of get_id_and_template: state is the pair
(vlan, template), both starting at the sentinel; a line matching
BASE_CONFIG[0] or BASE_CONFIG[3] overwrites the field with the line's last
whitespace token (none models the IndexError of split()[-1] on a
whitespace-only line, which in fact cannot match). -/
def gitStep (st : Str × Str) (item : Str) : Option (Str × Str) :=
  let vOpt : Option Str :=
    if containsSub bc0 item then pyLast (splitWs item) else some st.1
  let tOpt : Option Str :=
    if containsSub bc3 item then pyLast (splitWs item) else some st.2
  match vOpt with
  | none => none
  | some v =>
    match tOpt with
    | none => none
    | some t => some (v, t)

/-- The loop of get_id_and_template over the interface lines. -/
def git_loop (st : Str × Str) : List Str → Option (Str × Str)
  | [] => some st
  | item :: rest =>
    match gitStep st item with
    | none => none
    | some st2 => git_loop st2 rest

/-- get_id_and_template of workstation-interface-check.py. -/
def get_id_and_template (interface : List Str) : Option (Str × Str) :=
  git_loop ("x".toList, "x".toList) interface

/-- One iteration of the loop of persistent_interface_data in
modify_interfaces.py: a line containing description is captured verbatim,
a line containing vlan or maximum overwrites the field with its last
whitespace token. -/
def pidStep (st : Str × PyVal × PyVal) (item : Str) : Option (Str × PyVal × PyVal) :=
  let d : Str := if containsSub descFrag item then item else st.1
  let vOpt : Option PyVal :=
    if containsSub vlanFrag item then (pyLast (splitWs item)).map PyVal.str
    else some st.2.1
  let mOpt : Option PyVal :=
    if containsSub maxFrag item then (pyLast (splitWs item)).map PyVal.str
    else some st.2.2
  match vOpt with
  | none => none
  | some v =>
    match mOpt with
    | none => none
    | some m => some (d, v, m)

/-- The loop of persistent_interface_data over the configuration lines. -/
def pid_loop (st : Str × PyVal × PyVal) : List Str → Option (Str × PyVal × PyVal)
  | [] => some st
  | item :: rest =>
    match pidStep st item with
    | none => none
    | some st2 => pid_loop st2 rest

/-- persistent_interface_data of modify_interfaces.py, starting from the
defaults: empty description, vlan 1, maximum 1. -/
def persistent_interface_data (cfg : List Str) : Option (Str × PyVal × PyVal) :=
  pid_loop (([] : Str), PyVal.int 1, PyVal.int 1) cfg

/-- configure_interface of modify_interfaces.py. The first component is
the command list sent to the switch; the second is the final value of the
caller's config_list object, which the function mutates in place (insert
at index 0 and the appends all act on the caller's list, so after the call
the caller's list is the whole plan). -/
def configure_interface (config_list : List Str) (interface description : Str)
    (vlan maximum : PyVal) : List Str × List Str :=
  let l1 := (("interface ".toList) ++ interface) :: config_list
  let l2 := if 1 < description.length then l1 ++ [description] else l1
  let l3 := l2 ++ [("switchport access vlan ".toList) ++ pyValStr vlan]
  let l4 := l3 ++ [("switchport port-security maximum ".toList) ++ pyValStr maximum]
  (l4, l4)

/-- Lines 45 to 48 of modify_interfaces.py: INTERFACE_CONFIG is built by a
single f.readline() append, so it holds exactly the first line of the
template file, trailing newline included. -/
def load_interface_config (content : Str) : List Str := [readFirstLine content]

/-- Lines 50 to 53 of modify_interfaces.py: INTERFACE_LIST is built by a
single stripped f.readline() append, so it holds exactly the first
interface named in the file. -/
def load_interface_list (content : Str) : List Str := [pyStrip (readFirstLine content)]

/-- Outcome of the session collaborator for one switch in the audit: the
connection or enable step raises, some command during interface collection
raises, or the per-interface configurations are collected (with a flag
telling whether the final disconnect succeeds). -/
inductive SessionResult where
  | connectFail : SessionResult
  | collectFail : SessionResult
  | collected : List (Str × List Str) → Bool → SessionResult
deriving DecidableEq

/-- One audit target: its hostname, whether DNS resolution succeeds, and
what its session does. -/
structure SwitchSpec where
  name : Str
  resolves : Bool
  session : SessionResult
deriving DecidableEq

/-- Log entry written at the top of the per-switch loop of main. -/
def logCurrent (sw : Str) : Str := ("Current switch: ".toList) ++ sw

/-- Log entry written when the hostname does not resolve. -/
def logHostErr (sw : Str) : Str := ("ERROR: Check hostname for ".toList) ++ sw

/-- Log entry written by the except branch of main. -/
def logConnErr (sw : Str) : Str := ("ERROR: Unexpected exception with ".toList) ++ sw

/-- One CSV row written by main of workstation-interface-check.py. -/
def mkRow (sw iface vlan templ : Str) (ok : Bool) : Str :=
  sw ++ (",".toList) ++ iface ++ (",".toList) ++ vlan ++ (",".toList) ++ templ ++
    (if ok then (",Y".toList) else (",N".toList)) ++ ("\n".toList)

/-- The row-writing loop of main over the collected interface
configurations; the Bool records whether the loop ran to completion (false
models an exception escaping mid-loop, with the rows already written
kept). -/
def auditLoop (sw : Str) : List (Str × List Str) → List Str × Bool
  | [] => ([], true)
  | (iface, cfg) :: rest =>
    match get_id_and_template cfg with
    | none => ([], false)
    | some (vlan, templ) =>
      let r := mkRow sw iface vlan templ (check_interface_config cfg)
      let p := auditLoop sw rest
      (r :: p.1, p.2)

/-- Processing of one switch by main: the DNS gate, then the guarded
session; returns the log entries and CSV rows this switch produces. -/
def process_switch (sw : SwitchSpec) : List Str × List Str :=
  if sw.resolves then
    match sw.session with
    | SessionResult.connectFail => ([logCurrent sw.name, logConnErr sw.name], [])
    | SessionResult.collectFail => ([logCurrent sw.name, logConnErr sw.name], [])
    | SessionResult.collected cfgs disconnectOk =>
      let p := auditLoop sw.name cfgs
      if p.2 then
        if disconnectOk then ([logCurrent sw.name], p.1)
        else ([logCurrent sw.name, logConnErr sw.name], p.1)
      else ([logCurrent sw.name, logConnErr sw.name], p.1)
  else ([logCurrent sw.name, logHostErr sw.name], [])

/-- The switch loop of main of workstation-interface-check.py: every
switch in the list is attempted once, in order, and its log entries and
rows are appended to the run's output. -/
def main_audit : List SwitchSpec → List Str × List Str
  | [] => ([], [])
  | sw :: rest =>
    let p := process_switch sw
    let q := main_audit rest
    (p.1 ++ q.1, p.2 ++ q.2)

/-- Last element of the sublist of lines containing the fragment; the
specification's notion of the line a last-match-wins scan ends up with. -/
def lastMatching (f : Str) (cfg : List Str) : Option Str :=
  pyLast (cfg.filter fun l => containsSub f l)

/-- Specification-side description: the last line containing description,
verbatim, or the given default. -/
def specDescr (d0 : Str) (cfg : List Str) : Str :=
  (lastMatching descFrag cfg).getD d0

/-- Specification-side token capture into a PyVal: the last whitespace
token of the last line containing the fragment, or the given default. -/
def specTok (f : Str) (v0 : PyVal) (cfg : List Str) : PyVal :=
  match lastMatching f cfg with
  | some l =>
    match pyLast (splitWs l) with
    | some t => PyVal.str t
    | none => v0
  | none => v0

/-- Specification-side token capture into a string field: the last
whitespace token of the last line containing the fragment, or the given
sentinel. -/
def specTokX (f : Str) (x0 : Str) (cfg : List Str) : Str :=
  match lastMatching f cfg with
  | some l =>
    match pyLast (splitWs l) with
    | some t => t
    | none => x0
  | none => x0

theorem pyLast_eq_none_iff (l : List Str) : pyLast l = none ↔ l = [] := by
  induction l with
  | nil => simp [pyLast]
  | cons x t ih =>
    cases t with
    | nil => simp [pyLast]
    | cons y r => simpa [pyLast] using ih

theorem pyLast_isSome_of_ne_nil (l : List Str) (h : l ≠ []) : (pyLast l).isSome = true := by
  cases hp : pyLast l with
  | none => exact absurd ((pyLast_eq_none_iff l).mp hp) h
  | some x => rfl

theorem pyLast_cons_cons (x y : Str) (t : List Str) :
    pyLast (x :: y :: t) = pyLast (y :: t) := rfl

theorem splitWsAux_eq_nil (l : Str) : ∀ acc : Str, splitWsAux acc l = [] →
    acc = [] ∧ ∀ c ∈ l, isSpace c = true := by
  induction l with
  | nil =>
    intro acc h
    simp only [splitWsAux] at h
    constructor
    · by_cases ha : acc.isEmpty
      · simpa using ha
      · simp [ha] at h
    · intro c hc
      simp at hc
  | cons x t ih =>
    intro acc h
    simp only [splitWsAux] at h
    by_cases hx : isSpace x
    · simp only [hx, if_true] at h
      by_cases ha : acc.isEmpty
      · simp only [ha, if_true] at h
        have := ih [] h
        refine ⟨by simpa using ha, ?_⟩
        intro c hc
        rcases List.mem_cons.mp hc with rfl | hc
        · exact hx
        · exact this.2 c hc
      · simp [ha] at h
    · simp only [hx, if_false] at h
      have := ih (x :: acc) h
      exact absurd this.1 (by simp)

theorem splitWs_ne_nil (l : Str) (c : Char) (hc : c ∈ l) (hs : isSpace c = false) :
    splitWs l ≠ [] := by
  intro h
  have := (splitWsAux_eq_nil l [] h).2 c hc
  rw [this] at hs
  simp at hs

theorem mem_of_startsWith (n : Str) (c : Char) (hc : c ∈ n) :
    ∀ h : Str, startsWith n h = true → c ∈ h := by
  induction n with
  | nil => simp at hc
  | cons a as ih =>
    intro h hsw
    cases h with
    | nil => simp [startsWith] at hsw
    | cons b bs =>
      simp only [startsWith, Bool.and_eq_true, decide_eq_true_eq] at hsw
      rcases List.mem_cons.mp hc with rfl | hc
      · exact List.mem_cons.mpr (Or.inl hsw.1)
      · exact List.mem_cons.mpr (Or.inr (ih hc bs hsw.2))

theorem mem_of_containsSub (n : Str) (c : Char) (hc : c ∈ n) :
    ∀ h : Str, containsSub n h = true → c ∈ h := by
  intro h
  induction h with
  | nil =>
    intro hcs
    simp only [containsSub, List.isEmpty_iff] at hcs
    subst hcs
    simp at hc
  | cons b bs ih =>
    intro hcs
    simp only [containsSub, Bool.or_eq_true] at hcs
    rcases hcs with hsw | hcs
    · exact mem_of_startsWith n c hc (b :: bs) hsw
    · exact List.mem_cons.mpr (Or.inr (ih hcs))

/-- A line containing a fragment with a non-whitespace character has a
well-defined last whitespace token: split()[-1] cannot raise on it. -/
theorem token_of_match (f : Str) (c : Char) (hc : c ∈ f) (hs : isSpace c = false)
    (l : Str) (h : containsSub f l = true) : (pyLast (splitWs l)).isSome = true := by
  have hcl : c ∈ l := mem_of_containsSub f c hc l h
  exact pyLast_isSome_of_ne_nil _ (splitWs_ne_nil l c hcl hs)

theorem lastMatching_cons (f : Str) (x : Str) (l : List Str) :
    lastMatching f (x :: l) =
      match lastMatching f l with
      | some y => some y
      | none => if containsSub f x then some x else none := by
  unfold lastMatching
  by_cases hx : containsSub f x
  · rw [List.filter_cons_of_pos (by simpa using hx)]
    cases hfl : List.filter (fun l => containsSub f l) l with
    | nil => simp [pyLast, hfl, pyLast_eq_none_iff, hx]
    | cons y r =>
      rw [pyLast_cons_cons]
      cases hp : pyLast (y :: r) with
      | none => exact absurd ((pyLast_eq_none_iff _).mp hp) (by simp)
      | some z => simp
  · rw [List.filter_cons_of_neg (by simpa using hx)]
    cases hp : pyLast (List.filter (fun l => containsSub f l) l) with
    | none => simp [hx]
    | some z => simp

theorem pyLast_mem (l : List Str) (x : Str) (h : pyLast l = some x) : x ∈ l := by
  induction l with
  | nil => simp [pyLast] at h
  | cons a t ih =>
    cases t with
    | nil =>
      simp only [pyLast, Option.some.injEq] at h
      simp [h]
    | cons b r =>
      rw [pyLast_cons_cons] at h
      exact List.mem_cons.mpr (Or.inr (ih h))

theorem lastMatching_matches (f : Str) (l : List Str) (y : Str)
    (h : lastMatching f l = some y) : containsSub f y = true := by
  have hm := pyLast_mem _ _ h
  simpa using (List.mem_filter.mp hm).2

theorem specDescr_cons (d0 x : Str) (l : List Str) :
    specDescr d0 (x :: l) =
      specDescr (if containsSub descFrag x then x else d0) l := by
  unfold specDescr
  rw [lastMatching_cons]
  cases h : lastMatching descFrag l with
  | some y => simp [h]
  | none => by_cases hx : containsSub descFrag x <;> simp [h, hx]

theorem specTok_cons (f : Str) (v0 : PyVal) (x : Str) (l : List Str)
    (Hf : ∀ s : Str, containsSub f s = true → (pyLast (splitWs s)).isSome = true) :
    specTok f v0 (x :: l) =
      specTok f
        (if containsSub f x then
          match pyLast (splitWs x) with
          | some t => PyVal.str t
          | none => v0
        else v0) l := by
  unfold specTok
  rw [lastMatching_cons]
  cases h : lastMatching f l with
  | some y =>
    cases hp : pyLast (splitWs y) with
    | none =>
      have hy := Hf y (lastMatching_matches f l y h)
      rw [hp] at hy
      simp at hy
    | some t => simp [h, hp]
  | none =>
    by_cases hx : containsSub f x
    · cases hp : pyLast (splitWs x) <;> simp [h, hx, hp]
    · simp [h, hx]

theorem specTokX_cons (f : Str) (x0 : Str) (x : Str) (l : List Str)
    (Hf : ∀ s : Str, containsSub f s = true → (pyLast (splitWs s)).isSome = true) :
    specTokX f x0 (x :: l) =
      specTokX f
        (if containsSub f x then
          match pyLast (splitWs x) with
          | some t => t
          | none => x0
        else x0) l := by
  unfold specTokX
  rw [lastMatching_cons]
  cases h : lastMatching f l with
  | some y =>
    cases hp : pyLast (splitWs y) with
    | none =>
      have hy := Hf y (lastMatching_matches f l y h)
      rw [hp] at hy
      simp at hy
    | some t => simp [h, hp]
  | none =>
    by_cases hx : containsSub f x
    · cases hp : pyLast (splitWs x) <;> simp [h, hx, hp]
    · simp [h, hx]

/-- Every line containing the fragment vlan has a well-defined last
whitespace token. -/
theorem vlanToken (s : Str) (h : containsSub vlanFrag s = true) :
    (pyLast (splitWs s)).isSome = true :=
  token_of_match vlanFrag 'v' (by decide) (by decide) s h

/-- Every line containing the fragment maximum has a well-defined last
whitespace token. -/
theorem maxToken (s : Str) (h : containsSub maxFrag s = true) :
    (pyLast (splitWs s)).isSome = true :=
  token_of_match maxFrag 'm' (by decide) (by decide) s h

/-- Every line containing the first baseline fragment has a well-defined
last whitespace token. -/
theorem accessVlanToken (s : Str) (h : containsSub bc0 s = true) :
    (pyLast (splitWs s)).isSome = true :=
  token_of_match bc0 's' (by decide) (by decide) s h

/-- Every line containing the source template fragment has a well-defined
last whitespace token. -/
theorem sourceTemplateToken (s : Str) (h : containsSub bc3 s = true) :
    (pyLast (splitWs s)).isSome = true :=
  token_of_match bc3 's' (by decide) (by decide) s h

theorem pidStep_eq (d0 : Str) (v0 m0 : PyVal) (x : Str) :
    pidStep (d0, v0, m0) x = some
      (if containsSub descFrag x then x else d0,
       if containsSub vlanFrag x then
         (match pyLast (splitWs x) with
          | some t => PyVal.str t
          | none => v0)
       else v0,
       if containsSub maxFrag x then
         (match pyLast (splitWs x) with
          | some t => PyVal.str t
          | none => m0)
       else m0) := by
  unfold pidStep
  by_cases cv : containsSub vlanFrag x
  · obtain ⟨t, ht⟩ := Option.isSome_iff_exists.mp (vlanToken x cv)
    by_cases cm : containsSub maxFrag x
    · simp [cv, cm, ht]
    · simp [cv, cm, ht]
  · by_cases cm : containsSub maxFrag x
    · obtain ⟨u, hu⟩ := Option.isSome_iff_exists.mp (maxToken x cm)
      simp [cv, cm, hu]
    · simp [cv, cm]

theorem pid_loop_eq (cfg : List Str) : ∀ (d0 : Str) (v0 m0 : PyVal),
    pid_loop (d0, v0, m0) cfg =
      some (specDescr d0 cfg,
            specTok vlanFrag v0 cfg,
            specTok maxFrag m0 cfg) := by
  induction cfg with
  | nil =>
    intro d0 v0 m0
    simp [pid_loop, specDescr, specTok, lastMatching, pyLast]
  | cons x rest ih =>
    intro d0 v0 m0
    rw [specDescr_cons, specTok_cons vlanFrag v0 x rest vlanToken,
        specTok_cons maxFrag m0 x rest maxToken]
    simp only [pid_loop, pidStep_eq]
    exact ih _ _ _

/-- The extraction routine is the last-match-wins specification. -/
theorem persistent_interface_data_eq (cfg : List Str) :
    persistent_interface_data cfg =
      some (specDescr [] cfg,
            specTok vlanFrag (PyVal.int 1) cfg,
            specTok maxFrag (PyVal.int 1) cfg) :=
  pid_loop_eq cfg [] (PyVal.int 1) (PyVal.int 1)

theorem gitStep_eq (v0 t0 : Str) (x : Str) :
    gitStep (v0, t0) x = some
      (if containsSub bc0 x then
         (match pyLast (splitWs x) with
          | some t => t
          | none => v0)
       else v0,
       if containsSub bc3 x then
         (match pyLast (splitWs x) with
          | some t => t
          | none => t0)
       else t0) := by
  unfold gitStep
  by_cases cv : containsSub bc0 x
  · obtain ⟨t, ht⟩ := Option.isSome_iff_exists.mp (accessVlanToken x cv)
    by_cases cm : containsSub bc3 x
    · simp [cv, cm, ht]
    · simp [cv, cm, ht]
  · by_cases cm : containsSub bc3 x
    · obtain ⟨u, hu⟩ := Option.isSome_iff_exists.mp (sourceTemplateToken x cm)
      simp [cv, cm, hu]
    · simp [cv, cm]

theorem git_loop_eq (cfg : List Str) : ∀ v0 t0 : Str,
    git_loop (v0, t0) cfg =
      some (specTokX bc0 v0 cfg,
            specTokX bc3 t0 cfg) := by
  induction cfg with
  | nil =>
    intro v0 t0
    simp [git_loop, specTokX, lastMatching, pyLast]
  | cons x rest ih =>
    intro v0 t0
    rw [specTokX_cons bc0 v0 x rest accessVlanToken,
        specTokX_cons bc3 t0 x rest sourceTemplateToken]
    simp only [git_loop, gitStep_eq]
    exact ih _ _

/-- The reporting-field routine is the last-match-wins specification. -/
theorem get_id_and_template_eq (cfg : List Str) :
    get_id_and_template cfg =
      some (specTokX bc0 ("x".toList) cfg,
            specTokX bc3 ("x".toList) cfg) :=
  git_loop_eq cfg ("x".toList) ("x".toList)

theorem checkRequired_eq_true_iff (interface : List Str) : ∀ l : List Str,
    checkRequired interface l = true ↔
      ∀ ci ∈ l, ∃ line ∈ interface, containsSub ci line = true := by
  intro l
  induction l with
  | nil => simp [checkRequired]
  | cons ci rest ih =>
    simp only [checkRequired]
    by_cases h : interface.any (fun item => containsSub ci item) = true
    · have hex : ∃ line ∈ interface, containsSub ci line = true := by
        simpa using h
      simp only [h, if_true, ih, List.forall_mem_cons]
      exact ⟨fun hr => ⟨hex, hr⟩, fun hp => hp.2⟩
    · have hf : interface.any (fun item => containsSub ci item) = false := by
        simpa using h
      simp only [hf, Bool.false_eq_true, if_false, false_iff]
      intro hall
      exact h (by simpa using hall ci (List.mem_cons_self ci rest))

theorem splitNl_ne_nil (s : Str) : splitNl s ≠ [] := by
  induction s with
  | nil => simp [splitNl]
  | cons c t ih =>
    simp only [splitNl]
    by_cases hc : c = '\n'
    · simp [hc]
    · simp only [hc, if_false]
      cases h : splitNl t <;> simp

theorem length_splitNl (s : Str) : (splitNl s).length = countNl s + 1 := by
  induction s with
  | nil => simp [splitNl, countNl]
  | cons c t ih =>
    simp only [splitNl, countNl]
    by_cases hc : c = '\n'
    · simp only [hc, if_true, List.length_cons, ih]
      omega
    · simp only [hc, if_false]
      cases h : splitNl t with
      | nil => exact absurd h (splitNl_ne_nil t)
      | cons a r =>
        rw [h] at ih
        simp only [List.length_cons] at ih ⊢
        omega

theorem joinNl_splitNl (s : Str) : joinNl (splitNl s) = s := by
  induction s with
  | nil => simp [splitNl, joinNl]
  | cons c t ih =>
    simp only [splitNl]
    by_cases hc : c = '\n'
    · subst hc
      simp only [if_pos rfl]
      cases h : splitNl t with
      | nil => exact absurd h (splitNl_ne_nil t)
      | cons a r =>
        rw [h] at ih
        simp [joinNl, ih]
    · simp only [hc, if_false]
      cases h : splitNl t with
      | nil => exact absurd h (splitNl_ne_nil t)
      | cons a r =>
        rw [h] at ih
        cases r with
        | nil =>
          simp only [joinNl] at ih ⊢
          rw [ih]
        | cons b r2 =>
          simp only [joinNl] at ih ⊢
          rw [List.cons_append, ih]

theorem check_interface_config_eq_and (M : List Str) :
    check_interface_config M =
      (checkRequired M BASE_CONFIG &&
        !((M.any fun item => containsSub speedFrag item)
          || (M.any fun item => containsSub duplexFrag item))) := by
  unfold check_interface_config
  cases checkRequired M BASE_CONFIG <;>
    cases hM : ((M.any fun item => containsSub speedFrag item)
      || (M.any fun item => containsSub duplexFrag item)) <;> simp [hM]

theorem check_interface_config_iff (M : List Str) :
    check_interface_config M = true ↔
      ((∀ frag ∈ BASE_CONFIG, ∃ line ∈ M, containsSub frag line = true)
        ∧ (∀ line ∈ M, containsSub speedFrag line = false)
        ∧ (∀ line ∈ M, containsSub duplexFrag line = false)) := by
  rw [check_interface_config_eq_and]
  simp only [Bool.and_eq_true, Bool.not_eq_true', Bool.or_eq_false_iff,
    checkRequired_eq_true_iff, List.any_eq_false, Bool.not_eq_true, and_assoc]

theorem pyLast_concat (l : List Str) (x : Str) : pyLast (l ++ [x]) = some x := by
  induction l with
  | nil => rfl
  | cons a t ih =>
    cases t with
    | nil => rfl
    | cons b r =>
      rw [List.cons_append]
      rw [show ((b :: r : List Str) ++ [x]) = b :: (r ++ [x]) from rfl] at ih ⊢
      rw [pyLast_cons_cons]
      exact ih

/-- C1: check_interface_config returns compliant exactly when each of the
five BASE_CONFIG fragments occurs as a substring of some line and no line
contains speed and no line contains duplex; and the verdict is invariant
under permutation of the lines, so line order is irrelevant. -/
theorem C1_compliance_iff (L : List Str) :
    (check_interface_config L = true ↔
      ((∀ frag ∈ BASE_CONFIG, ∃ line ∈ L, containsSub frag line = true)
        ∧ (∀ line ∈ L, containsSub speedFrag line = false)
        ∧ (∀ line ∈ L, containsSub duplexFrag line = false)))
    ∧ ∀ L2 : List Str, L.Perm L2 →
        check_interface_config L = check_interface_config L2 := by
  refine ⟨check_interface_config_iff L, ?_⟩
  intro L2 hperm
  have transfer : ∀ (A B : List Str), A.Perm B →
      ((∀ frag ∈ BASE_CONFIG, ∃ line ∈ A, containsSub frag line = true)
        ∧ (∀ line ∈ A, containsSub speedFrag line = false)
        ∧ (∀ line ∈ A, containsSub duplexFrag line = false)) →
      ((∀ frag ∈ BASE_CONFIG, ∃ line ∈ B, containsSub frag line = true)
        ∧ (∀ line ∈ B, containsSub speedFrag line = false)
        ∧ (∀ line ∈ B, containsSub duplexFrag line = false)) := by
    rintro A B hAB ⟨ha, hb, hc⟩
    refine ⟨?_, ?_, ?_⟩
    · intro frag hf
      obtain ⟨line, hl, hcl⟩ := ha frag hf
      exact ⟨line, hAB.mem_iff.mp hl, hcl⟩
    · intro line hl
      exact hb line (hAB.mem_iff.mpr hl)
    · intro line hl
      exact hc line (hAB.mem_iff.mpr hl)
  have hiff : check_interface_config L = true ↔ check_interface_config L2 = true := by
    rw [check_interface_config_iff L, check_interface_config_iff L2]
    exact ⟨transfer L L2 hperm, transfer L2 L hperm.symm⟩
  cases hA : check_interface_config L with
  | false =>
    cases hB : check_interface_config L2 with
    | false => rfl
    | true =>
      have hcontr := hiff.mpr hB
      rw [hA] at hcontr
      exact absurd hcontr (by simp)
  | true =>
    cases hB : check_interface_config L2 with
    | false =>
      have hcontr := hiff.mp hA
      rw [hB] at hcontr
      exact absurd hcontr (by simp)
    | true => rfl

/-- C1 witness: the permutation part of the theorem applied to a concrete
two-line set and its swap. -/
theorem C1_compliance_iff_witness :
    check_interface_config ["speed 100".toList, "duplex full".toList] =
      check_interface_config ["duplex full".toList, "speed 100".toList] :=
  (C1_compliance_iff ["speed 100".toList, "duplex full".toList]).2
    ["duplex full".toList, "speed 100".toList] (by decide)

/-- C2: persistent_interface_data returns the last line containing
description verbatim (empty string when none), and the final whitespace
token of the last line containing vlan respectively maximum (the integer
default 1 when none); the last match always wins. -/
theorem C2_extraction_last_match (cfg : List Str) :
    persistent_interface_data cfg =
      some (specDescr [] cfg, specTok vlanFrag (PyVal.int 1) cfg,
            specTok maxFrag (PyVal.int 1) cfg) :=
  persistent_interface_data_eq cfg

/-- C3 counterexample: a one-character description is non-empty, yet the
synthesized plan omits it, because the code keeps a description only when
its length exceeds one; so inclusion is not equivalent to non-emptiness. -/
theorem C3_counterexample :
    ("d".toList : Str) ≠ [] ∧
    ("d".toList : Str) ∉ (configure_interface [] ("Gi1/0/1".toList) ("d".toList)
      (PyVal.str ("5".toList)) (PyVal.str ("3".toList))).1 := by decide

/-- C3 amended: the synthesized plan is exactly the interface-selector
line, then the template lines in supplied order unmodified, then the
preserved description exactly when its length exceeds one, then the
VLAN-assignment line, then the port-security-maximum line last. -/
theorem C3_plan_shape (t : List Str) (i d : Str) (v m : PyVal) :
    (configure_interface t i d v m).1 =
      (("interface ".toList) ++ i) ::
        (t ++ (if 1 < d.length then [d] else []) ++
          [("switchport access vlan ".toList) ++ pyValStr v,
           ("switchport port-security maximum ".toList) ++ pyValStr m]) := by
  unfold configure_interface
  by_cases hd : 1 < d.length <;> simp [hd]

/-- C4 counterexample: the call mutates the caller-supplied template list,
which afterwards holds the whole plan, and a second call reusing that same
list object yields a different plan than the first call. -/
theorem C4_counterexample :
    (configure_interface ["no shutdown".toList] ("Gi1/0/1".toList) ([] : Str)
        (PyVal.int 1) (PyVal.int 1)).2 ≠ ["no shutdown".toList] ∧
    (configure_interface ((configure_interface ["no shutdown".toList] ("Gi1/0/1".toList)
        ([] : Str) (PyVal.int 1) (PyVal.int 1)).2) ("Gi1/0/1".toList) ([] : Str)
        (PyVal.int 1) (PyVal.int 1)).1 ≠
      (configure_interface ["no shutdown".toList] ("Gi1/0/1".toList) ([] : Str)
        (PyVal.int 1) (PyVal.int 1)).1 := by decide

/-- C4 amended: the plan is a pure function of the argument values (two
calls on equal values give equal plans), but the call is not free of side
effects: the caller's template list afterwards equals the whole plan,
which is strictly longer than the supplied template. -/
theorem C4_value_determinism_and_mutation (t : List Str) (i d : Str) (v m : PyVal) :
    (configure_interface t i d v m).2 = (configure_interface t i d v m).1
    ∧ t.length < (configure_interface t i d v m).2.length
    ∧ ∀ t2 i2 d2 v2 m2, t2 = t → i2 = i → d2 = d → v2 = v → m2 = m →
        (configure_interface t2 i2 d2 v2 m2).1 = (configure_interface t i d v m).1 := by
  refine ⟨rfl, ?_, ?_⟩
  · unfold configure_interface
    by_cases hd : 1 < d.length <;> simp [hd] <;> omega
  · rintro t2 i2 d2 v2 m2 rfl rfl rfl rfl rfl
    rfl

/-- C4 witness: the theorem applied at concrete inputs, the equalities
discharged by rfl. -/
theorem C4_value_determinism_and_mutation_witness :
    (configure_interface ["no shutdown".toList] ("Gi1/0/2".toList) ([] : Str)
        (PyVal.int 1) (PyVal.int 1)).1 =
      (configure_interface ["no shutdown".toList] ("Gi1/0/2".toList) ([] : Str)
        (PyVal.int 1) (PyVal.int 1)).1 :=
  (C4_value_determinism_and_mutation ["no shutdown".toList] ("Gi1/0/2".toList) ([] : Str)
    (PyVal.int 1) (PyVal.int 1)).2.2 _ _ _ _ _ rfl rfl rfl rfl rfl

/-- C5 counterexample: with two lines matching the access-vlan fragment
the code reports the token of the last matching line, not of the first as
the claim states. -/
theorem C5_counterexample :
    get_id_and_template
        ["switchport access vlan 10".toList, "switchport access vlan 20".toList] =
      some ("20".toList, "x".toList)
    ∧ ("20".toList : Str) ≠ "10".toList := by decide

/-- C5 amended: get_id_and_template returns the last whitespace token of
the last line containing the access-vlan fragment and of the last line
containing the source-template fragment, each field falling back to the
sentinel x when no line matches, so both fields are always defined. -/
theorem C5_last_match (L : List Str) :
    get_id_and_template L =
      some (specTokX bc0 ("x".toList) L, specTokX bc3 ("x".toList) L) :=
  get_id_and_template_eq L

/-- A fully compliant demonstration configuration for one interface. -/
def demoCfg : List Str :=
  ["switchport access vlan 50".toList,
   "switchport port-security maximum 2".toList,
   "no logging event link-status".toList,
   "source template WORKSTATION".toList,
   "spanning-tree portfast".toList]

/-- A switch whose session collects one interface successfully and then
raises while disconnecting. -/
def demoDisc : SwitchSpec :=
  { name := "sw1".toList, resolves := true,
    session := SessionResult.collected [("Gi1/0/1".toList, demoCfg)] false }

/-- C6 counterexample: a switch whose session raises at disconnect, after
its rows were already written, gets its error logged yet still contributes
rows to the report, contradicting the claim that an erroring switch
contributes no rows. -/
theorem C6_counterexample :
    (main_audit [demoDisc]).2 ≠ []
    ∧ logConnErr ("sw1".toList) ∈ (main_audit [demoDisc]).1 := by decide

/-- C6 amended: the audit processes every listed switch exactly once and
never aborts (the run output is the concatenation of the per-switch
outputs in list order); an unresolved hostname or a session error raised
before any row is written yields a log entry and no rows; a session error
raised after rows were written (such as a disconnect failure) still yields
a log entry but the rows remain in the report. -/
theorem C6_failure_isolation (sws : List SwitchSpec) :
    main_audit sws = ((sws.map fun sw => (process_switch sw).1).flatten,
                      (sws.map fun sw => (process_switch sw).2).flatten)
    ∧ (∀ sw : SwitchSpec,
        (sw.resolves = false →
          process_switch sw = ([logCurrent sw.name, logHostErr sw.name], []))
        ∧ (sw.resolves = true → sw.session = SessionResult.connectFail →
            process_switch sw = ([logCurrent sw.name, logConnErr sw.name], []))
        ∧ (sw.resolves = true → sw.session = SessionResult.collectFail →
            process_switch sw = ([logCurrent sw.name, logConnErr sw.name], []))
        ∧ (∀ cfgs, sw.resolves = true → sw.session = SessionResult.collected cfgs false →
            logConnErr sw.name ∈ (process_switch sw).1)) := by
  constructor
  · induction sws with
    | nil => rfl
    | cons sw rest ih =>
      simp only [main_audit, List.map_cons, List.flatten_cons, ih]
  · intro sw
    refine ⟨?_, ?_, ?_, ?_⟩
    · intro h
      simp [process_switch, h]
    · intro h1 h2
      simp [process_switch, h1, h2]
    · intro h1 h2
      simp [process_switch, h1, h2]
    · intro cfgs h1 h2
      simp only [process_switch, h1, h2, if_true]
      cases hb : (auditLoop sw.name cfgs).2 <;> simp

/-- A switch whose hostname does not resolve in DNS. -/
def demoNoDns : SwitchSpec :=
  { name := "sw2".toList, resolves := false, session := SessionResult.connectFail }

/-- A switch that resolves but whose connection attempt raises. -/
def demoConnFail : SwitchSpec :=
  { name := "sw3".toList, resolves := true, session := SessionResult.connectFail }

/-- C6 witness: the theorem applied to the three failure shapes at
concrete switches, every hypothesis discharged definitionally. -/
theorem C6_failure_isolation_witness :
    process_switch demoNoDns = ([logCurrent ("sw2".toList), logHostErr ("sw2".toList)], [])
    ∧ process_switch demoConnFail =
      ([logCurrent ("sw3".toList), logConnErr ("sw3".toList)], [])
    ∧ logConnErr ("sw1".toList) ∈ (process_switch demoDisc).1 :=
  ⟨((C6_failure_isolation []).2 _).1 rfl,
   ((C6_failure_isolation []).2 _).2.1 rfl rfl,
   (((C6_failure_isolation []).2 demoDisc).2.2.2
     [("Gi1/0/1".toList, demoCfg)] rfl rfl)⟩

/-- C7 counterexample: the raw output is split on newlines but the pieces
are not trimmed; a line with surrounding blanks is kept verbatim and
differs from its stripped form, contradicting the trimming part of the
claim. -/
theorem C7_counterexample :
    splitNl (" a \nb".toList) = [" a ".toList, "b".toList]
    ∧ pyStrip (" a ".toList) = "a".toList
    ∧ (" a ".toList : Str) ≠ "a".toList := by decide

/-- C7 amended: the raw text is split on newline characters with the
pieces kept verbatim (not trimmed); no line is dropped and no content is
lost (joining the lines with newlines restores the input), and the line
count is one plus the number of newlines. -/
theorem C7_split_no_trim_no_drop (raw : Str) :
    (splitNl raw).length = countNl raw + 1 ∧ joinNl (splitNl raw) = raw :=
  ⟨length_splitNl raw, joinNl_splitNl raw⟩

/-- C8: extraction is total (it always returns a result), a set with no
matching line yields the all-default output, and splitting any line that
contains the vlan or maximum fragment always produces a last token, since
such a line contains a non-whitespace character. -/
theorem C8_extraction_total (cfg : List Str) :
    (persistent_interface_data cfg).isSome = true
    ∧ ((∀ line ∈ cfg, containsSub descFrag line = false
          ∧ containsSub vlanFrag line = false
          ∧ containsSub maxFrag line = false) →
        persistent_interface_data cfg = some (([] : Str), PyVal.int 1, PyVal.int 1))
    ∧ (∀ line : Str, containsSub vlanFrag line = true ∨ containsSub maxFrag line = true →
        (pyLast (splitWs line)).isSome = true) := by
  refine ⟨?_, ?_, ?_⟩
  · rw [persistent_interface_data_eq]
    rfl
  · intro hall
    rw [persistent_interface_data_eq]
    have hd : List.filter (fun l => containsSub descFrag l) cfg = [] := by
      rw [List.filter_eq_nil_iff]
      intro a ha
      simp [(hall a ha).1]
    have hv : List.filter (fun l => containsSub vlanFrag l) cfg = [] := by
      rw [List.filter_eq_nil_iff]
      intro a ha
      simp [(hall a ha).2.1]
    have hm : List.filter (fun l => containsSub maxFrag l) cfg = [] := by
      rw [List.filter_eq_nil_iff]
      intro a ha
      simp [(hall a ha).2.2]
    simp [specDescr, specTok, lastMatching, hd, hv, hm, pyLast]
  · intro line h
    rcases h with h | h
    · exact vlanToken line h
    · exact maxToken line h

/-- C8 witness: the theorem applied to a set with no matching line, and
the token part applied to a concrete vlan line. -/
theorem C8_extraction_total_witness :
    persistent_interface_data ["no shutdown".toList] =
      some (([] : Str), PyVal.int 1, PyVal.int 1)
    ∧ (pyLast (splitWs ("switchport access vlan 5".toList))).isSome = true :=
  ⟨(C8_extraction_total ["no shutdown".toList]).2.1 (by decide),
   (C8_extraction_total []).2.2 ("switchport access vlan 5".toList) (Or.inl (by decide))⟩

/-- C9: the reconfiguration orchestrator reads only the first line of each
input artifact: with a three-interface list only the first interface is
loaded, so only one interface is processed, and with a two-line template
only the first template line is loaded into every plan. -/
theorem C9_first_line_only :
    load_interface_list ("Gi1/0/1\nGi1/0/2\nGi1/0/3".toList) = ["Gi1/0/1".toList]
    ∧ (load_interface_list ("Gi1/0/1\nGi1/0/2\nGi1/0/3".toList)).length = 1
    ∧ load_interface_config ("no shut\nspanning-tree portfast\n".toList) =
      ["no shut\n".toList]
    ∧ ("spanning-tree portfast".toList : Str) ∉
      load_interface_config ("no shut\nspanning-tree portfast\n".toList)
    ∧ ("spanning-tree portfast\n".toList : Str) ∉
      load_interface_config ("no shut\nspanning-tree portfast\n".toList) := by decide

/-- C10 counterexample: the last description-bearing line contains vlan
(its last token is 5), yet a later dedicated vlan line overrides the
vlanId with 7, so the claimed unconditional simultaneous capture fails. -/
theorem C10_counterexample :
    persistent_interface_data
        ["description data vlan 5".toList, "switchport access vlan 7".toList] =
      some ("description data vlan 5".toList, PyVal.str ("7".toList), PyVal.int 1)
    ∧ containsSub descFrag ("description data vlan 5".toList) = true
    ∧ containsSub vlanFrag ("description data vlan 5".toList) = true
    ∧ containsSub descFrag ("switchport access vlan 7".toList) = false
    ∧ pyLast (splitWs ("description data vlan 5".toList)) = some ("5".toList)
    ∧ PyVal.str ("7".toList) ≠ PyVal.str ("5".toList) := by decide

/-- C10 amended: if the last description-bearing line also contains vlan
and no later line contains vlan, then extraction returns that line as the
description and simultaneously its last whitespace token as the vlanId,
overriding any value taken from an earlier dedicated vlan line. -/
theorem C10_combined_line (pre post : List Str) (L : Str)
    (hLd : containsSub descFrag L = true) (hLv : containsSub vlanFrag L = true)
    (hpost : ∀ l ∈ post, containsSub descFrag l = false ∧ containsSub vlanFrag l = false) :
    ∃ t m1, pyLast (splitWs L) = some t ∧
      persistent_interface_data (pre ++ L :: post) = some (L, PyVal.str t, m1) := by
  obtain ⟨t, ht⟩ := Option.isSome_iff_exists.mp (vlanToken L hLv)
  refine ⟨t, specTok maxFrag (PyVal.int 1) (pre ++ L :: post), ht, ?_⟩
  rw [persistent_interface_data_eq]
  have hpostd : List.filter (fun l => containsSub descFrag l) post = [] := by
    rw [List.filter_eq_nil_iff]
    intro a ha
    simp [(hpost a ha).1]
  have hpostv : List.filter (fun l => containsSub vlanFrag l) post = [] := by
    rw [List.filter_eq_nil_iff]
    intro a ha
    simp [(hpost a ha).2]
  have hfd : List.filter (fun l => containsSub descFrag l) (pre ++ L :: post) =
      List.filter (fun l => containsSub descFrag l) pre ++ [L] := by
    rw [List.filter_append, List.filter_cons_of_pos (by simpa using hLd), hpostd]
  have hfv : List.filter (fun l => containsSub vlanFrag l) (pre ++ L :: post) =
      List.filter (fun l => containsSub vlanFrag l) pre ++ [L] := by
    rw [List.filter_append, List.filter_cons_of_pos (by simpa using hLv), hpostv]
  have h1 : specDescr [] (pre ++ L :: post) = L := by
    simp [specDescr, lastMatching, hfd, pyLast_concat]
  have h2 : specTok vlanFrag (PyVal.int 1) (pre ++ L :: post) = PyVal.str t := by
    simp [specTok, lastMatching, hfv, pyLast_concat, ht]
  rw [h1, h2]

/-- C10 witness: the amended theorem at a concrete set whose combined line
follows a dedicated vlan line, which it overrides. -/
theorem C10_combined_line_witness :
    ∃ t m1, pyLast (splitWs ("description data vlan 5".toList)) = some t ∧
      persistent_interface_data
          (["switchport access vlan 7".toList] ++ ("description data vlan 5".toList) :: []) =
        some ("description data vlan 5".toList, PyVal.str t, m1) :=
  C10_combined_line ["switchport access vlan 7".toList] [] ("description data vlan 5".toList)
    (by decide) (by decide) (by decide)
